import Mathlib

/-!
Shallow embedding of the inference orchestration core of the
Traffic-Predictor.Ai repository (`src/app/api/predict/route.ts`): feature
vector construction, the lazily filled two-model session cache, per-model
inference decoding, max-congestion ensemble aggregation, and the batch
orchestrator with its error handling.

Modelling conventions:
* JavaScript numbers are modelled as rationals (`ℚ`); machine floating
  point is idealised.
* External collaborators (the ONNX runtime, the weather provider, the
  clock, the camera location list) are injected as parameters.
* Executing a model session is abstracted by its outcome: either a thrown
  error (`Except.error`) or the data of its first output tensor, given as
  the first element plus the remaining elements (an output tensor holds at
  least one element).
* `parseInt` returning `NaN` is modelled by `Option.none`.
-/

/-- JavaScript `Math.round`: round half toward positive infinity,
so `Math.round x = ⌊x + 1/2⌋`. -/
def jsRound (q : ℚ) : Int := ⌊q + 1 / 2⌋

/-- The loop of `runInference`'s multi-class branch (route.ts lines 63-72):
scan the remaining values `xs` starting at position `i`, keeping the current
best index `mi` and best value `mv`; a later value replaces the best only
under strict greater-than. Returns the final `(maxIdx, maxVal)`. -/
def argmaxAux : List ℚ → Nat → Nat → ℚ → Nat × ℚ
  | [], _, mi, mv => (mi, mv)
  | x :: xs, i, mi, mv =>
    if mv < x then argmaxAux xs (i + 1) i x
    else argmaxAux xs (i + 1) mi mv

/-- Output decoding of `runInference` (route.ts lines 63-78), on an output
tensor whose data is `v0 :: rest`. If the output length is at least 3,
take the argmax index as the congestion and the maximum value as the
probability; otherwise round the first value, clamp it into `[0, 2]`
(`Math.max(0, Math.min(2, Math.round(val)))`) and report probability 1. -/
def decodeOutput (v0 : ℚ) (rest : List ℚ) : Int × ℚ :=
  if 3 ≤ rest.length + 1 then
    (((argmaxAux rest 1 0 v0).1 : Int), (argmaxAux rest 1 0 v0).2)
  else
    (max 0 (min 2 (jsRound v0)), 1)

/-- The per-model result `{congestion, probability}` of `runInference`.
The TypeScript annotation claims `congestion : CongestionLevel` (0|1|2),
but the cast `maxIdx as CongestionLevel` is unchecked, so the field is
modelled as an unrestricted integer. -/
structure ModelResult where
  congestion : Int
  probability : ℚ
deriving DecidableEq

/-- `runInference` (route.ts lines 51-83) over the abstracted execution
outcome: any failure during tensor construction, session execution or
decoding is caught and degraded to `{congestion: 0, probability: 0}`;
a successful execution's output data is decoded by `decodeOutput`.
The function is total: it never propagates an error. -/
def runInference (outcome : Except String (ℚ × List ℚ)) : ModelResult :=
  match outcome with
  | .error _ => ⟨0, 0⟩
  | .ok (v0, rest) => ⟨(decodeOutput v0 rest).1, (decodeOutput v0 rest).2⟩

/-- One step of the `results.reduce` aggregation (route.ts lines 131-133):
`(current.congestion > prev.congestion) ? current : prev`. -/
def aggStep (prev current : ModelResult) : ModelResult :=
  if prev.congestion < current.congestion then current else prev

/-- JavaScript `Array.prototype.reduce` without an initial value on the
non-empty list `r :: rs`: fold `aggStep` over `rs` starting from `r`. -/
def aggregate1 (r : ModelResult) (rs : List ModelResult) : ModelResult :=
  rs.foldl aggStep r

/-- A camera location (from `@/lib/locations`, injected configuration). -/
structure Location where
  name : String
  latitude : ℚ
  longitude : ℚ
deriving DecidableEq

/-- The weather context shared by a batch (from `@/lib/weather`). -/
structure Weather where
  temperature_2m : ℚ
  precipitation : ℚ
  rain : ℚ
  wind_speed_10m : ℚ
deriving DecidableEq

/-- The feature vector handed to inference (route.ts lines 110-119):
`[lat, lon, hour, day, temp, precip, rain, wind]`. -/
def buildFeatures (loc : Location) (hour day : ℚ) (w : Weather) : List ℚ :=
  [loc.latitude, loc.longitude, hour, day,
   w.temperature_2m, w.precipitation, w.rain, w.wind_speed_10m]

/-- The module-level session cache (route.ts line 23): two independently
nullable handles, initially both `none`. -/
structure Sessions (S : Type) where
  stage1 : Option S
  stage2 : Option S
deriving DecidableEq

/-- `getSessions` (route.ts lines 25-49). The outcome of loading each model
artifact and constructing its session is injected (`load1`, `load2`). If
both handles are already resident, they are returned with no load attempt.
Otherwise both loads run (`Promise.all`); if either fails the whole
acquisition fails with the underlying error and the cache state is left
unchanged; if both succeed the state is replaced by both handles at once.
Returns (result, new cache state, whether loading was attempted). -/
def getSessions {S : Type} (st : Sessions S) (load1 load2 : Except String S) :
    Except String (Sessions S) × Sessions S × Bool :=
  if st.stage1.isSome ∧ st.stage2.isSome then (.ok st, st, false)
  else
    match load1, load2 with
    | .ok s1, .ok s2 => (.ok ⟨some s1, some s2⟩, ⟨some s1, some s2⟩, true)
    | .error e, _ => (.error e, st, true)
    | .ok _, .error e => (.error e, st, true)

/-- Modelled from the spec: `CONGESTION_LABELS` lives in `@/lib/types`,
which is not among the provided sources; the spec fixes the labels
Low=0, Moderate=1, High=2. -/
def CONGESTION_LABELS : List String := ["Low", "Moderate", "High"]

/-- Array indexing `CONGESTION_LABELS[c]`; out-of-range access yields
JavaScript `undefined`, rendered here as the string "undefined". -/
def labelOf (c : Int) : String :=
  if c < 0 then "undefined"
  else (CONGESTION_LABELS.get? c.toNat).getD "undefined"

/-- A per-location entry of the batch response (route.ts lines 135-142). -/
structure Prediction where
  location : String
  latitude : ℚ
  longitude : ℚ
  congestion : Int
  congestionLabel : String
  probability : ℚ
deriving DecidableEq

/-- Building the pushed prediction from a location and the aggregated final
result (route.ts lines 135-142). -/
def mkPrediction (loc : Location) (res : ModelResult) : Prediction :=
  ⟨loc.name, loc.latitude, loc.longitude, res.congestion,
   labelOf res.congestion, res.probability⟩

/-- The per-location `results` array (route.ts lines 122-124):
`if (stage1) results.push(...); if (stage2) results.push(...)`,
stage1 first. `exec` gives each session's execution outcome on an input. -/
def resultsFor {S : Type} (stage1 stage2 : Option S)
    (exec : S → List ℚ → Except String (ℚ × List ℚ)) (input : List ℚ) :
    List ModelResult :=
  (match stage1 with
   | some s => [runInference (exec s input)]
   | none => []) ++
  (match stage2 with
   | some s => [runInference (exec s input)]
   | none => [])

/-- The per-location loop of `GET` (route.ts lines 108-143): for each
location build the feature vector, run both available models, throw
"No models loaded" if no model ran, otherwise aggregate with the
max-congestion reduce and push the prediction. An error aborts the whole
loop (the thrown exception propagates). -/
def runLocations {S : Type} (stage1 stage2 : Option S)
    (exec : S → List ℚ → Except String (ℚ × List ℚ))
    (hour day : ℚ) (w : Weather) : List Location → Except String (List Prediction)
  | [] => .ok []
  | loc :: rest =>
    match resultsFor stage1 stage2 exec (buildFeatures loc hour day w) with
    | [] => .error "No models loaded"
    | r :: rs =>
      match runLocations stage1 stage2 exec hour day w rest with
      | .error e => .error e
      | .ok tail => .ok (mkPrediction loc (aggregate1 r rs) :: tail)

/-- The catch branch's structured error body (route.ts lines 157-163):
generic message, detail string, HTTP status. -/
structure ErrResponse where
  error : String
  details : String
  status : Nat
deriving DecidableEq

/-- The successful batch response (route.ts lines 145-151); the wall-clock
timestamp field is outside the model. -/
structure BatchResponse where
  predictions : List Prediction
  weather : Weather
  hour : ℚ
  day : ℚ
deriving DecidableEq

/-- The `GET` handler (route.ts lines 85-165) after hour/day resolution
(modelled separately by `resolveParam`, since a `NaN` hour is not a
rational). The weather outcome, cache state, load outcomes, session
execution behaviour and location list are injected. Any thrown error is
caught and turned into the structured 500 response carrying the generic
message and the underlying cause. Returns (response, final cache state,
whether artifact loading was attempted). -/
def GET {S : Type} (hour day : ℚ) (weatherRes : Except String Weather)
    (st : Sessions S) (load1 load2 : Except String S)
    (exec : S → List ℚ → Except String (ℚ × List ℚ))
    (locations : List Location) :
    Except ErrResponse BatchResponse × Sessions S × Bool :=
  match weatherRes with
  | .error e => (.error ⟨"Failed to generate predictions", e, 500⟩, st, false)
  | .ok w =>
    match getSessions st load1 load2 with
    | (.error e, st2, b) => (.error ⟨"Failed to generate predictions", e, 500⟩, st2, b)
    | (.ok ss, st2, b) =>
      match runLocations ss.stage1 ss.stage2 exec hour day w locations with
      | .error e => (.error ⟨"Failed to generate predictions", e, 500⟩, st2, b)
      | .ok preds => (.ok ⟨preds, w, hour, day⟩, st2, b)

/-- Longest leading run of decimal digits of a character list. -/
def leadDigits : List Char → List Char
  | [] => []
  | c :: cs => if c.isDigit then c :: leadDigits cs else []

/-- Numeric value of a digit list, most significant digit first. -/
def digitsToNat (ds : List Char) : Nat :=
  ds.foldl (fun n c => 10 * n + (c.toNat - 48)) 0

/-- JavaScript `parseInt` with the default radix 10: skip leading
whitespace, take an optional sign, then the longest run of decimal digits;
`NaN` (no digits) is modelled as `none`. Hexadecimal `0x` forms are not
modelled. -/
def parseIntJs (s : String) : Option Int :=
  match s.data.dropWhile Char.isWhitespace with
  | '-' :: rest =>
    match leadDigits rest with
    | [] => none
    | ds => some (-(digitsToNat ds : Int))
  | '+' :: rest =>
    match leadDigits rest with
    | [] => none
    | ds => some ((digitsToNat ds : Int))
  | other =>
    match leadDigits other with
    | [] => none
    | ds => some ((digitsToNat ds : Int))

/-- Resolution of the `hour`/`day` query parameters (route.ts lines 88-95):
`customHour ? parseInt(customHour) : timeInfo.hour`. The guard is
JavaScript truthiness — the parameter is used whenever it is present and
non-empty — and the parse result may be `NaN` (`none`). -/
def resolveParam (custom : Option String) (fallback : Int) : Option Int :=
  match custom with
  | none => some fallback
  | some s => if s = "" then some fallback else parseIntJs s

/-! ## Helper lemmas -/

/-- The rounded value is a nearest integer: `jsRound` differs from its
argument by at most one half. -/
theorem jsRound_nearest (q : ℚ) : |q - (jsRound q : ℚ)| ≤ 1 / 2 := by
  rw [abs_le]
  have h1 : ((jsRound q : Int) : ℚ) ≤ q + 1 / 2 := Int.floor_le (q + 1 / 2)
  have h2 : q + 1 / 2 < ((jsRound q : Int) : ℚ) + 1 := Int.lt_floor_add_one (q + 1 / 2)
  constructor <;> [linarith; linarith]

/-- The multi-class branch of `decodeOutput` (output length at least 3). -/
theorem decodeOutput_multi (v0 : ℚ) (rest : List ℚ) (h : 2 ≤ rest.length) :
    decodeOutput v0 rest =
      (((argmaxAux rest 1 0 v0).1 : Int), (argmaxAux rest 1 0 v0).2) := by
  simp only [decodeOutput]
  rw [if_pos (by omega)]

/-- The scalar branch of `decodeOutput` (output length below 3). -/
theorem decodeOutput_scalar (v0 : ℚ) (rest : List ℚ) (h : rest.length < 2) :
    decodeOutput v0 rest = (max 0 (min 2 (jsRound v0)), 1) := by
  simp only [decodeOutput]
  rw [if_neg (by omega)]

/-- Characterisation of `argmaxAux`: either no scanned value strictly
exceeds the running best, and the accumulator is returned unchanged; or the
result is the element at offset `j` of the scanned list, it strictly
exceeds the running best, no scanned value exceeds it, and every scanned
value strictly before it is strictly smaller (first-seen tie-break). -/
theorem argmaxAux_spec (xs : List ℚ) : ∀ (i mi : Nat) (mv : ℚ),
    (argmaxAux xs i mi mv = (mi, mv) ∧ ∀ x ∈ xs, x ≤ mv) ∨
    (∃ (j : Nat) (hj : j < xs.length),
      argmaxAux xs i mi mv = (i + j, xs.get ⟨j, hj⟩) ∧
      mv < xs.get ⟨j, hj⟩ ∧
      (∀ x ∈ xs, x ≤ xs.get ⟨j, hj⟩) ∧
      ∀ k, ∀ hk : k < j, xs.get ⟨k, Nat.lt_trans hk hj⟩ < xs.get ⟨j, hj⟩) := by
  induction xs with
  | nil =>
    intro i mi mv
    exact Or.inl ⟨rfl, by simp⟩
  | cons x t ih =>
    intro i mi mv
    by_cases hx : mv < x
    · have hstep : argmaxAux (x :: t) i mi mv = argmaxAux t (i + 1) i x := by
        simp [argmaxAux, hx]
      rcases ih (i + 1) i x with ⟨heq, hall⟩ | ⟨j, hj, heq, hlt, hall, hfirst⟩
      · right
        refine ⟨0, Nat.succ_pos _, ?_, hx, ?_, ?_⟩
        · rw [hstep, heq]; simp
        · intro y hy
          rcases List.mem_cons.mp hy with hy | hy
          · exact le_of_eq hy
          · exact hall y hy
        · intro k hk
          exact absurd hk (Nat.not_lt_zero k)
      · right
        refine ⟨j + 1, Nat.succ_lt_succ hj, ?_, ?_, ?_, ?_⟩
        · rw [hstep, heq]
          have h1 : i + 1 + j = i + (j + 1) := by omega
          rw [h1]
          rfl
        · exact lt_trans hx hlt
        · intro y hy
          rcases List.mem_cons.mp hy with hy | hy
          · subst hy; exact le_of_lt hlt
          · exact hall y hy
        · intro k hk
          cases k with
          | zero => exact hlt
          | succ k2 => exact hfirst k2 (Nat.lt_of_succ_lt_succ hk)
    · have hx2 : x ≤ mv := not_lt.mp hx
      have hstep : argmaxAux (x :: t) i mi mv = argmaxAux t (i + 1) mi mv := by
        simp [argmaxAux, hx]
      rcases ih (i + 1) mi mv with ⟨heq, hall⟩ | ⟨j, hj, heq, hlt, hall, hfirst⟩
      · left
        refine ⟨by rw [hstep, heq], ?_⟩
        intro y hy
        rcases List.mem_cons.mp hy with hy | hy
        · subst hy; exact hx2
        · exact hall y hy
      · right
        refine ⟨j + 1, Nat.succ_lt_succ hj, ?_, hlt, ?_, ?_⟩
        · rw [hstep, heq]
          have h1 : i + 1 + j = i + (j + 1) := by omega
          rw [h1]
          rfl
        · intro y hy
          rcases List.mem_cons.mp hy with hy | hy
          · subst hy; exact le_of_lt (lt_of_le_of_lt hx2 hlt)
          · exact hall y hy
        · intro k hk
          cases k with
          | zero => exact lt_of_le_of_lt hx2 hlt
          | succ k2 => exact hfirst k2 (Nat.lt_of_succ_lt_succ hk)

/-- Characterisation of the `reduce` fold: either no element of the list
strictly exceeds the accumulator's congestion and the accumulator is
returned, or the result is the element at position `j`, its congestion
strictly exceeds the accumulator's, no element's congestion exceeds it, and
every element strictly before it has strictly smaller congestion. -/
theorem foldl_aggStep_spec (l : List ModelResult) : ∀ (a : ModelResult),
    (l.foldl aggStep a = a ∧ ∀ x ∈ l, x.congestion ≤ a.congestion) ∨
    (∃ (j : Nat) (hj : j < l.length),
      l.foldl aggStep a = l.get ⟨j, hj⟩ ∧
      a.congestion < (l.get ⟨j, hj⟩).congestion ∧
      (∀ x ∈ l, x.congestion ≤ (l.get ⟨j, hj⟩).congestion) ∧
      ∀ k, ∀ hk : k < j,
        (l.get ⟨k, Nat.lt_trans hk hj⟩).congestion < (l.get ⟨j, hj⟩).congestion) := by
  induction l with
  | nil =>
    intro a
    exact Or.inl ⟨rfl, by simp⟩
  | cons x t ih =>
    intro a
    by_cases hx : a.congestion < x.congestion
    · have hstep : (x :: t).foldl aggStep a = t.foldl aggStep x := by
        simp [List.foldl_cons, aggStep, hx]
      rcases ih x with ⟨heq, hall⟩ | ⟨j, hj, heq, hlt, hall, hfirst⟩
      · right
        refine ⟨0, Nat.succ_pos _, ?_, hx, ?_, ?_⟩
        · rw [hstep, heq]; rfl
        · intro y hy
          rcases List.mem_cons.mp hy with hy | hy
          · exact le_of_eq (congrArg ModelResult.congestion hy)
          · exact hall y hy
        · intro k hk
          exact absurd hk (Nat.not_lt_zero k)
      · right
        refine ⟨j + 1, Nat.succ_lt_succ hj, ?_, ?_, ?_, ?_⟩
        · rw [hstep, heq]; rfl
        · exact lt_trans hx hlt
        · intro y hy
          rcases List.mem_cons.mp hy with hy | hy
          · subst hy; exact le_of_lt hlt
          · exact hall y hy
        · intro k hk
          cases k with
          | zero => exact hlt
          | succ k2 => exact hfirst k2 (Nat.lt_of_succ_lt_succ hk)
    · have hx2 : x.congestion ≤ a.congestion := not_lt.mp hx
      have hstep : (x :: t).foldl aggStep a = t.foldl aggStep a := by
        simp [List.foldl_cons, aggStep, hx]
      rcases ih a with ⟨heq, hall⟩ | ⟨j, hj, heq, hlt, hall, hfirst⟩
      · left
        refine ⟨by rw [hstep, heq], ?_⟩
        intro y hy
        rcases List.mem_cons.mp hy with hy | hy
        · subst hy; exact hx2
        · exact hall y hy
      · right
        refine ⟨j + 1, Nat.succ_lt_succ hj, ?_, hlt, ?_, ?_⟩
        · rw [hstep, heq]; rfl
        · intro y hy
          rcases List.mem_cons.mp hy with hy | hy
          · subst hy; exact le_of_lt (lt_of_le_of_lt hx2 hlt)
          · exact hall y hy
        · intro k hk
          cases k with
          | zero => exact lt_of_le_of_lt hx2 hlt
          | succ k2 => exact hfirst k2 (Nat.lt_of_succ_lt_succ hk)

/-! ## Claim theorems -/

/-- Claim C1: for every non-empty list of per-model results (in model
order, stage1 then stage2), the `reduce` aggregation returns one of the
contributing results; its congestion is the maximum ordinal among them
(never lower than any contributor); it is the first-encountered result in
input order among those attaining the maximum (every strictly earlier
result has strictly lower congestion), so on ties the first result and its
probability are kept; and the final `Prediction` built from it carries
exactly its congestion and probability. -/
theorem ensemble_max_first_spec (r : ModelResult) (rs : List ModelResult) :
    aggregate1 r rs ∈ r :: rs ∧
    (∀ x ∈ r :: rs, x.congestion ≤ (aggregate1 r rs).congestion) ∧
    (∃ (i : Nat) (hi : i < (r :: rs).length),
      (r :: rs).get ⟨i, hi⟩ = aggregate1 r rs ∧
      ∀ k, ∀ hk : k < i,
        ((r :: rs).get ⟨k, Nat.lt_trans hk hi⟩).congestion <
          (aggregate1 r rs).congestion) ∧
    ∀ loc : Location,
      (mkPrediction loc (aggregate1 r rs)).congestion = (aggregate1 r rs).congestion ∧
      (mkPrediction loc (aggregate1 r rs)).probability = (aggregate1 r rs).probability := by
  have h := foldl_aggStep_spec rs r
  rcases h with ⟨heq, hall⟩ | ⟨j, hj, heq, hlt, hall, hfirst⟩
  · refine ⟨?_, ?_, ?_, fun loc => ⟨rfl, rfl⟩⟩
    · rw [aggregate1, heq]; exact List.mem_cons_self r rs
    · intro y hy
      rw [aggregate1, heq]
      rcases List.mem_cons.mp hy with hy | hy
      · exact le_of_eq (congrArg ModelResult.congestion hy)
      · exact hall y hy
    · refine ⟨0, Nat.succ_pos _, ?_, ?_⟩
      · rw [aggregate1, heq]; rfl
      · intro k hk
        exact absurd hk (Nat.not_lt_zero k)
  · refine ⟨?_, ?_, ?_, fun loc => ⟨rfl, rfl⟩⟩
    · rw [aggregate1, heq]
      exact List.mem_cons_of_mem r (List.get_mem rs j hj)
    · intro y hy
      rw [aggregate1, heq]
      rcases List.mem_cons.mp hy with hy | hy
      · subst hy; exact le_of_lt hlt
      · exact hall y hy
    · refine ⟨j + 1, Nat.succ_lt_succ hj, ?_, ?_⟩
      · rw [aggregate1, heq]; rfl
      · intro k hk
        rw [aggregate1, heq]
        cases k with
        | zero => exact hlt
        | succ k2 => exact hfirst k2 (Nat.lt_of_succ_lt_succ hk)

/-- Witness for C1 at a concrete tie: two results with equal congestion 1,
the first (probability 9/10) is kept. -/
theorem ensemble_max_first_w :
    aggregate1 ⟨1, 9/10⟩ [⟨1, 1/10⟩] ∈ ([⟨1, 9/10⟩, ⟨1, 1/10⟩] : List ModelResult) ∧
    aggregate1 ⟨1, 9/10⟩ [⟨1, 1/10⟩] = ⟨1, 9/10⟩ :=
  ⟨(ensemble_max_first_spec ⟨1, 9/10⟩ [⟨1, 1/10⟩]).1, rfl⟩

/-- Claim C2: for every output vector of length at least 3
(`v0 :: v1 :: v2 :: rest`), the decoded congestion is the index of the
maximum value under strict greater-than comparison (every strictly earlier
entry is strictly smaller, so ties resolve to the lowest index) and the
probability is that maximum value; in particular `[0.1, 0.7, 0.2]` decodes
to congestion 1 with probability 0.7 and `[0.5, 0.5, 0.0]` decodes to
congestion 0. -/
theorem argmax_decode_spec (v0 v1 v2 : ℚ) (rest : List ℚ) :
    (∃ (i : Nat) (hi : i < (v0 :: v1 :: v2 :: rest).length),
      (decodeOutput v0 (v1 :: v2 :: rest)).1 = (i : Int) ∧
      (v0 :: v1 :: v2 :: rest).get ⟨i, hi⟩ = (decodeOutput v0 (v1 :: v2 :: rest)).2 ∧
      (∀ x ∈ v0 :: v1 :: v2 :: rest, x ≤ (decodeOutput v0 (v1 :: v2 :: rest)).2) ∧
      ∀ k, ∀ hk : k < i,
        (v0 :: v1 :: v2 :: rest).get ⟨k, Nat.lt_trans hk hi⟩ <
          (decodeOutput v0 (v1 :: v2 :: rest)).2) ∧
    decodeOutput (1/10) [7/10, 2/10] = (1, 7/10) ∧
    (decodeOutput (1/2) [1/2, 0]).1 = 0 := by
  refine ⟨?_, by norm_num [decodeOutput, argmaxAux], by norm_num [decodeOutput, argmaxAux]⟩
  have hd := decodeOutput_multi v0 (v1 :: v2 :: rest) (by simp)
  have h := argmaxAux_spec (v1 :: v2 :: rest) 1 0 v0
  rcases h with ⟨heq, hall⟩ | ⟨j, hj, heq, hlt, hall, hfirst⟩
  · refine ⟨0, Nat.succ_pos _, ?_, ?_, ?_, ?_⟩
    · rw [hd, heq]
    · rw [hd, heq]; rfl
    · intro y hy
      rw [hd, heq]
      rcases List.mem_cons.mp hy with hy | hy
      · exact le_of_eq hy
      · exact hall y hy
    · intro k hk
      exact absurd hk (Nat.not_lt_zero k)
  · refine ⟨j + 1, Nat.succ_lt_succ hj, ?_, ?_, ?_, ?_⟩
    · rw [hd, heq]
      simp [Nat.add_comm 1 j]
    · rw [hd, heq]
      rfl
    · intro y hy
      rw [hd, heq]
      rcases List.mem_cons.mp hy with hy | hy
      · subst hy; exact le_of_lt hlt
      · exact hall y hy
    · intro k hk
      rw [hd, heq]
      cases k with
      | zero => exact hlt
      | succ k2 => exact hfirst k2 (Nat.lt_of_succ_lt_succ hk)

/-- Witness for C2 at the concrete vectors of the claim. -/
theorem argmax_decode_w :
    decodeOutput (1/10) [7/10, 2/10] = (1, 7/10) ∧
    (decodeOutput (1/2) [1/2, 0]).1 = 0 :=
  ⟨(argmax_decode_spec (1/10) (7/10) (2/10) []).2.1,
   (argmax_decode_spec (1/2) (1/2) 0 []).2.2⟩

/-- Claim C3: for every output vector of length below 3 (one or two
entries), decoding interprets the first entry as a regression value, rounds
it to a nearest integer (`jsRound`, which differs from the value by at most
one half), clamps the result into `[0, 2]`, and reports probability exactly
1; in particular 2.6 decodes to congestion 2 and -1 decodes to congestion
0, both with probability 1. -/
theorem scalar_decode_spec (v0 : ℚ) :
    decodeOutput v0 [] = (max 0 (min 2 (jsRound v0)), 1) ∧
    (∀ x : ℚ, decodeOutput v0 [x] = (max 0 (min 2 (jsRound v0)), 1)) ∧
    0 ≤ max 0 (min 2 (jsRound v0)) ∧
    max 0 (min 2 (jsRound v0)) ≤ 2 ∧
    |v0 - (jsRound v0 : ℚ)| ≤ 1 / 2 ∧
    decodeOutput (26 / 10 : ℚ) [] = (2, 1) ∧
    decodeOutput (-1 : ℚ) [] = (0, 1) := by
  refine ⟨?_, ?_, le_max_left 0 _, max_le (by norm_num) (min_le_left _ _),
    jsRound_nearest v0, ?_, ?_⟩
  · exact decodeOutput_scalar v0 [] (by simp)
  · intro x
    exact decodeOutput_scalar v0 [x] (by simp)
  · rw [decodeOutput_scalar _ _ (by simp)]
    have h : jsRound (26 / 10 : ℚ) = 3 := by
      rw [jsRound, Int.floor_eq_iff]
      norm_num
    rw [h]
    decide
  · rw [decodeOutput_scalar _ _ (by simp)]
    have h : jsRound (-1 : ℚ) = -1 := by
      rw [jsRound, Int.floor_eq_iff]
      norm_num
    rw [h]
    decide

/-- Claim C4: whatever the failure during tensor construction, session
execution or output decoding (modelled by the execution outcome being an
error), `runInference` returns exactly `{congestion: 0, probability: 0}`;
being a total function, it never propagates the error. -/
theorem inference_fallback_spec (e : String) :
    runInference (Except.error e) = ⟨0, 0⟩ := rfl

/-- Claim C6: for every location and resolved time/weather context, the
feature vector has length exactly 8 and is in the fixed order
`[latitude, longitude, hour, day, temperature, precipitation, rain,
wind_speed]`. -/
theorem feature_vector_spec (loc : Location) (hour day : ℚ) (w : Weather) :
    (buildFeatures loc hour day w).length = 8 ∧
    buildFeatures loc hour day w =
      [loc.latitude, loc.longitude, hour, day, w.temperature_2m,
       w.precipitation, w.rain, w.wind_speed_10m] :=
  ⟨rfl, rfl⟩

/-- Counterexample to claim C7: the claim predicts that a caller-supplied
value that does not parse as an integer is replaced by the time provider's
value, e.g. `hour="abc"` with provider hour 7 resolves to 7. The code
instead guards only on truthiness and returns `parseInt("abc") = NaN`
(modelled as `none`). -/
theorem time_override_cex :
    resolveParam (some "abc") 7 = none ∧ resolveParam (some "abc") 7 ≠ some 7 := by
  have h0 : resolveParam (some "abc") 7 = none := rfl
  refine ⟨h0, ?_⟩
  intro h
  rw [h0] at h
  exact Option.noConfusion h

/-- Claim C7 as amended: the resolved hour/day equal the time provider's
value exactly when the parameter is absent or the empty string (JavaScript
falsiness); any other supplied string is passed to `parseInt`, whose result
is used even when it is `NaN` (no integer prefix) or a prefix parse. -/
theorem time_override_amended (fallback : Int) :
    resolveParam none fallback = some fallback ∧
    resolveParam (some "") fallback = some fallback ∧
    ∀ s : String, s ≠ "" → resolveParam (some s) fallback = parseIntJs s := by
  refine ⟨rfl, rfl, ?_⟩
  intro s hs
  simp [resolveParam, hs]

/-- Witness for the amended C7 at concrete inputs: "12" is used as parsed
(12), and the fallback 7 is ignored. -/
theorem time_override_amended_w :
    resolveParam (some "12") 7 = parseIntJs "12" ∧ parseIntJs "12" = some 12 := by
  constructor
  · exact (time_override_amended 7).2.2 "12" (by decide)
  · decide

/-- If both handles are resident, `getSessions` returns them with no load. -/
theorem getSessions_full {S : Type} (st : Sessions S) (l1 l2 : Except String S)
    (h : st.stage1.isSome ∧ st.stage2.isSome) :
    getSessions st l1 l2 = (.ok st, st, false) := by
  simp [getSessions, h]

/-- If the cache is not full and the first load fails, acquisition fails
with that error and the state is unchanged. -/
theorem getSessions_err1 {S : Type} (st : Sessions S) (l2 : Except String S)
    (e : String) (h : ¬(st.stage1.isSome ∧ st.stage2.isSome)) :
    getSessions st (.error e) l2 = (.error e, st, true) := by
  simp only [getSessions, if_neg h]

/-- If the cache is not full, the first load succeeds and the second fails,
acquisition fails with the second error and the state is unchanged. -/
theorem getSessions_err2 {S : Type} (st : Sessions S) (s1 : S) (e : String)
    (h : ¬(st.stage1.isSome ∧ st.stage2.isSome)) :
    getSessions st (.ok s1) (.error e) = (.error e, st, true) := by
  simp only [getSessions, if_neg h]

/-- If the cache is not full and both loads succeed, both handles are
stored at once and returned. -/
theorem getSessions_load {S : Type} (st : Sessions S) (s1 s2 : S)
    (h : ¬(st.stage1.isSome ∧ st.stage2.isSome)) :
    getSessions st (.ok s1) (.ok s2) =
      (.ok ⟨some s1, some s2⟩, ⟨some s1, some s2⟩, true) := by
  simp only [getSessions, if_neg h]

/-- Claim C5: the session cache holds zero or both handles at every
reachable state. If both handles are resident, `getSessions` returns them
immediately with no load attempt. Otherwise: a failing load fails the whole
acquisition with the underlying error and leaves the cache unchanged (an
empty cache stays empty, so a later call retries both loads), and only a
pair of successful loads fills the cache, with both handles stored at
once. The zero-or-two invariant is preserved by every call, and two
sequential calls whose first succeeds perform loading at most once: a call
starting from the empty cache with both loads succeeding loads and fills
the cache, and any call starting from a full cache performs no load. -/
theorem cache_zero_or_two_spec {S : Type} (st : Sessions S) (l1 l2 : Except String S) :
    (st.stage1.isSome ∧ st.stage2.isSome → getSessions st l1 l2 = (.ok st, st, false)) ∧
    (¬(st.stage1.isSome ∧ st.stage2.isSome) →
      (∀ e, l1 = .error e → getSessions st l1 l2 = (.error e, st, true)) ∧
      (∀ s1 e, l1 = .ok s1 → l2 = .error e → getSessions st l1 l2 = (.error e, st, true)) ∧
      (∀ s1 s2, l1 = .ok s1 → l2 = .ok s2 →
        getSessions st l1 l2 = (.ok ⟨some s1, some s2⟩, ⟨some s1, some s2⟩, true))) ∧
    ((st.stage1.isSome ↔ st.stage2.isSome) →
      (((getSessions st l1 l2).2.1).stage1.isSome ↔
        ((getSessions st l1 l2).2.1).stage2.isSome)) ∧
    (∀ s1 s2 : S,
      getSessions (Sessions.mk none none) (Except.ok s1) (Except.ok s2) =
        (.ok ⟨some s1, some s2⟩, ⟨some s1, some s2⟩, true) ∧
      getSessions (Sessions.mk (some s1) (some s2)) l1 l2 =
        (.ok ⟨some s1, some s2⟩, ⟨some s1, some s2⟩, false)) := by
  refine ⟨fun h => getSessions_full st l1 l2 h, ?_, ?_, ?_⟩
  · intro h
    refine ⟨?_, ?_, ?_⟩
    · intro e he
      subst he
      exact getSessions_err1 st l2 e h
    · intro s1 e h1 h2
      subst h1; subst h2
      exact getSessions_err2 st s1 e h
    · intro s1 s2 h1 h2
      subst h1; subst h2
      exact getSessions_load st s1 s2 h
  · intro hiff
    by_cases h : st.stage1.isSome ∧ st.stage2.isSome
    · rw [getSessions_full st l1 l2 h]
      exact hiff
    · cases l1 with
      | error e => rw [getSessions_err1 st l2 e h]; exact hiff
      | ok s1 =>
        cases l2 with
        | error e => rw [getSessions_err2 st s1 e h]; exact hiff
        | ok s2 => rw [getSessions_load st s1 s2 h]; simp
  · intro s1 s2
    constructor
    · exact getSessions_load ⟨none, none⟩ s1 s2 (by simp)
    · exact getSessions_full ⟨some s1, some s2⟩ l1 l2 (by simp)

/-- Witness for C5 at concrete inputs: from the empty cache a failed first
load fails the acquisition and leaves the cache empty, while a full cache
returns immediately with no load. -/
theorem cache_zero_or_two_w :
    getSessions (S := Nat) ⟨none, none⟩ (Except.error "load failed") (Except.ok 2) =
      (.error "load failed", ⟨none, none⟩, true) ∧
    getSessions (S := Nat) ⟨some 1, some 2⟩ (Except.error "load failed") (Except.ok 2) =
      (.ok ⟨some 1, some 2⟩, ⟨some 1, some 2⟩, false) := by
  have h1 := cache_zero_or_two_spec (S := Nat) ⟨none, none⟩
    (Except.error "load failed") (Except.ok 2)
  have h2 := cache_zero_or_two_spec (S := Nat) ⟨some 1, some 2⟩
    (Except.error "load failed") (Except.ok 2)
  exact ⟨(h1.2.1 (by simp)).1 "load failed" rfl, h2.1 (by simp)⟩

/-- Counterexample to claim C8: on the output vector `[0, 0, 0, 5]` (length
4, max at index 3) the decoded result has congestion 3, outside the
enumerated ordinals, and probability 5, outside `[0, 1]`. -/
theorem result_wellformed_cex :
    (runInference (Except.ok (0, [0, 0, 5]))).congestion = 3 ∧
    (runInference (Except.ok (0, [0, 0, 5]))).probability = 5 ∧
    ¬((runInference (Except.ok (0, [0, 0, 5]))).congestion ∈ ([0, 1, 2] : List Int) ∧
      (runInference (Except.ok (0, [0, 0, 5]))).probability ≤ 1) := by
  refine ⟨by decide, by decide, ?_⟩
  intro h
  exact absurd h.1 (by decide)

/-- Claim C8 as amended: the result of `runInference` is well-formed —
congestion in the enumerated ordinals {0, 1, 2} and probability in
`[0, 1]` — whenever the output vector has length at most 3 and every
output value lies in `[0, 1]`; the error fallback `{0, 0}` is always
well-formed. (Without those provisos the argmax branch can return a
congestion above 2 on longer outputs and a probability outside `[0, 1]`
from raw scores.) -/
theorem result_wellformed_amended (v0 : ℚ) (rest : List ℚ)
    (hlen : rest.length ≤ 2) (h0 : 0 ≤ v0) (h1 : v0 ≤ 1)
    (hrest : ∀ x ∈ rest, 0 ≤ x ∧ x ≤ 1) :
    ((runInference (Except.ok (v0, rest))).congestion ∈ ([0, 1, 2] : List Int) ∧
     0 ≤ (runInference (Except.ok (v0, rest))).probability ∧
     (runInference (Except.ok (v0, rest))).probability ≤ 1) ∧
    ∀ e : String,
      (runInference (Except.error e)).congestion ∈ ([0, 1, 2] : List Int) ∧
      0 ≤ (runInference (Except.error e)).probability ∧
      (runInference (Except.error e)).probability ≤ 1 := by
  constructor
  · simp only [runInference]
    by_cases hl : 2 ≤ rest.length
    · rw [decodeOutput_multi v0 rest hl]
      rcases argmaxAux_spec rest 1 0 v0 with ⟨heq, hall⟩ | ⟨j, hj, heq, hlt, hall, hfirst⟩
      · rw [heq]
        exact ⟨by simp, h0, h1⟩
      · rw [heq]
        have hj2 : j < 2 := lt_of_lt_of_le hj hlen
        have hb := hrest (rest.get ⟨j, hj⟩) (List.get_mem rest j hj)
        refine ⟨?_, hb.1, hb.2⟩
        simp only [List.mem_cons, List.not_mem_nil, or_false]
        omega
    · rw [decodeOutput_scalar v0 rest (by omega)]
      have ha : 0 ≤ max 0 (min 2 (jsRound v0)) := le_max_left 0 _
      have hb : max 0 (min 2 (jsRound v0)) ≤ 2 :=
        max_le (by norm_num) (min_le_left _ _)
      refine ⟨?_, by norm_num, by norm_num⟩
      simp only [List.mem_cons, List.not_mem_nil, or_false]
      omega
  · intro e
    exact ⟨by simp [runInference], le_refl 0, by norm_num [runInference]⟩

/-- Witness for the amended C8: a 3-class probability vector yields a
well-formed result. -/
theorem result_wellformed_amended_w :
    (runInference (Except.ok ((1/2 : ℚ), [1/4, 3/4]))).congestion ∈ ([0, 1, 2] : List Int) ∧
    0 ≤ (runInference (Except.ok ((1/2 : ℚ), [1/4, 3/4]))).probability ∧
    (runInference (Except.ok ((1/2 : ℚ), [1/4, 3/4]))).probability ≤ 1 :=
  (result_wellformed_amended (1/2) [1/4, 3/4] (by norm_num) (by norm_num)
    (by norm_num) (by norm_num)).1

/-- A successful location loop yields exactly one prediction per location
(never a truncated batch). -/
theorem runLocations_length {S : Type} (s1 s2 : Option S)
    (exec : S → List ℚ → Except String (ℚ × List ℚ)) (hour day : ℚ) (w : Weather) :
    ∀ (locs : List Location) (preds : List Prediction),
      runLocations s1 s2 exec hour day w locs = .ok preds →
      preds.length = locs.length := by
  intro locs
  induction locs with
  | nil =>
    intro preds h
    simp only [runLocations] at h
    cases h
    rfl
  | cons loc rest ih =>
    intro preds h
    simp only [runLocations] at h
    split at h
    · exact Except.noConfusion h
    · split at h
      · exact Except.noConfusion h
      · next tail heq =>
        cases h
        simp [ih tail heq]

/-- With both model handles resident the location loop never fails. -/
theorem runLocations_isOk {S : Type} (a c : S)
    (exec : S → List ℚ → Except String (ℚ × List ℚ)) (hour day : ℚ) (w : Weather) :
    ∀ locs : List Location, ∃ preds,
      runLocations (some a) (some c) exec hour day w locs = .ok preds := by
  intro locs
  induction locs with
  | nil => exact ⟨[], rfl⟩
  | cons loc rest ih =>
    obtain ⟨preds, hp⟩ := ih
    refine ⟨mkPrediction loc
      (aggregate1 (runInference (exec a (buildFeatures loc hour day w)))
        [runInference (exec c (buildFeatures loc hour day w))]) :: preds, ?_⟩
    simp only [runLocations, resultsFor, hp]
    rfl

/-- Claim C9: batch-level error handling. A weather failure, an artifact
load failure (cache not yet full; whether the first load fails or only the
second does), or a location-loop failure each abort the whole batch with
the structured error response carrying the generic message "Failed to
generate predictions" plus the underlying cause as the detail, with HTTP
status 500; with no model handle available the location loop fails with
the explicit "No models loaded" error for any non-empty location list; and
a successful batch is never partial: it holds exactly one prediction per
configured location. -/
theorem batch_error_handling {S : Type} (hour day : ℚ) (st : Sessions S)
    (l1 l2 : Except String S) (exec : S → List ℚ → Except String (ℚ × List ℚ))
    (locs : List Location) :
    (∀ e, (GET hour day (.error e) st l1 l2 exec locs).1 =
      .error ⟨"Failed to generate predictions", e, 500⟩) ∧
    (∀ w e, ¬(st.stage1.isSome ∧ st.stage2.isSome) → l1 = .error e →
      (GET hour day (.ok w) st l1 l2 exec locs).1 =
        .error ⟨"Failed to generate predictions", e, 500⟩) ∧
    (∀ w s1 e, ¬(st.stage1.isSome ∧ st.stage2.isSome) → l1 = .ok s1 →
      l2 = .error e →
      (GET hour day (.ok w) st l1 l2 exec locs).1 =
        .error ⟨"Failed to generate predictions", e, 500⟩) ∧
    (∀ (w : Weather) (loc : Location) (rest : List Location),
      runLocations (S := S) none none exec hour day w (loc :: rest) =
        .error "No models loaded") ∧
    (∀ w ss st2 b e, getSessions st l1 l2 = (.ok ss, st2, b) →
      runLocations ss.stage1 ss.stage2 exec hour day w locs = .error e →
      (GET hour day (.ok w) st l1 l2 exec locs).1 =
        .error ⟨"Failed to generate predictions", e, 500⟩) ∧
    ∀ wRes res, (GET hour day wRes st l1 l2 exec locs).1 = .ok res →
      res.predictions.length = locs.length := by
  refine ⟨fun e => rfl, ?_, ?_, ?_, ?_, ?_⟩
  · intro w e hfull hl1
    subst hl1
    have hg := getSessions_err1 st l2 e hfull
    simp [GET, hg]
  · intro w s1 e hfull hl1 hl2
    subst hl1
    subst hl2
    have hg := getSessions_err2 st s1 e hfull
    simp [GET, hg]
  · intro w loc rest
    simp [runLocations, resultsFor]
  · intro w ss st2 b e hg hrl
    simp [GET, hg, hrl]
  · intro wRes res h
    rcases wRes with e | w
    · simp [GET] at h
    · rcases hgs : getSessions st l1 l2 with ⟨gres, gst, gb⟩
      rcases gres with ge | ss
      · simp [GET, hgs] at h
      · rcases hrl : runLocations ss.stage1 ss.stage2 exec hour day w locs with e2 | preds
        · simp [GET, hgs, hrl] at h
        · simp [GET, hgs, hrl] at h
          have hlen := runLocations_length ss.stage1 ss.stage2 exec hour day w locs preds hrl
          rcases h with rfl
          simpa using hlen

/-- Witness for C9 at concrete inputs: a weather failure, a first-load
failure and a second-load failure each produce the structured error with
the generic message and the cause. -/
theorem batch_error_handling_w :
    (GET (S := Nat) 0 0 (Except.error "weather down") ⟨none, none⟩ (Except.ok 1)
        (Except.ok 2) (fun _ _ => Except.error "x") []).1 =
      Except.error ⟨"Failed to generate predictions", "weather down", 500⟩ ∧
    (GET (S := Nat) 0 0 (Except.ok ⟨0, 0, 0, 0⟩) ⟨none, none⟩
        (Except.error "load failed") (Except.ok 2)
        (fun _ _ => Except.error "x") []).1 =
      Except.error ⟨"Failed to generate predictions", "load failed", 500⟩ ∧
    (GET (S := Nat) 0 0 (Except.ok ⟨0, 0, 0, 0⟩) ⟨none, none⟩
        (Except.ok 1) (Except.error "second load failed")
        (fun _ _ => Except.error "x") []).1 =
      Except.error ⟨"Failed to generate predictions", "second load failed", 500⟩ := by
  have h1 := batch_error_handling (S := Nat) 0 0 ⟨none, none⟩ (Except.ok 1)
    (Except.ok 2) (fun _ _ => Except.error "x") []
  have h2 := batch_error_handling (S := Nat) 0 0 ⟨none, none⟩
    (Except.error "load failed") (Except.ok 2) (fun _ _ => Except.error "x") []
  have h3 := batch_error_handling (S := Nat) 0 0 ⟨none, none⟩
    (Except.ok 1) (Except.error "second load failed") (fun _ _ => Except.error "x") []
  exact ⟨h1.1 "weather down", h2.2.1 ⟨0, 0, 0, 0⟩ "load failed" (by simp) rfl,
    h3.2.2.1 ⟨0, 0, 0, 0⟩ 1 "second load failed" (by simp) rfl rfl⟩

/-- Claim C10: whenever `getSessions` returns successfully, both returned
handles are non-null; hence for every location the results collection
entering aggregation has exactly two elements (stage1 then stage2) and the
"No models loaded" branch is unreachable: the location loop always
succeeds. -/
theorem sessions_ok_results_complete {S : Type} (st : Sessions S)
    (l1 l2 : Except String S) (ss st2 : Sessions S) (b : Bool)
    (h : getSessions st l1 l2 = (.ok ss, st2, b)) :
    ss.stage1.isSome = true ∧ ss.stage2.isSome = true ∧
    (∀ (exec : S → List ℚ → Except String (ℚ × List ℚ)) (input : List ℚ),
      (resultsFor ss.stage1 ss.stage2 exec input).length = 2) ∧
    ∀ (exec : S → List ℚ → Except String (ℚ × List ℚ)) (hour day : ℚ)
      (w : Weather) (locs : List Location),
      ∃ preds, runLocations ss.stage1 ss.stage2 exec hour day w locs = .ok preds := by
  have hsome : ss.stage1.isSome = true ∧ ss.stage2.isSome = true := by
    by_cases hc : st.stage1.isSome ∧ st.stage2.isSome
    · rw [getSessions_full st l1 l2 hc] at h
      injection h with h1 h2
      injection h1 with h1a
      rw [← h1a]
      exact ⟨hc.1, hc.2⟩
    · cases l1 with
      | error e =>
        rw [getSessions_err1 st l2 e hc] at h
        injection h with h1 h2
        exact Except.noConfusion h1
      | ok s1 =>
        cases l2 with
        | error e =>
          rw [getSessions_err2 st s1 e hc] at h
          injection h with h1 h2
          exact Except.noConfusion h1
        | ok s2 =>
          rw [getSessions_load st s1 s2 hc] at h
          injection h with h1 h2
          injection h1 with h1a
          rw [← h1a]
          exact ⟨rfl, rfl⟩
  obtain ⟨ha, hb⟩ := hsome
  obtain ⟨a, ha2⟩ := Option.isSome_iff_exists.mp ha
  obtain ⟨c, hc2⟩ := Option.isSome_iff_exists.mp hb
  refine ⟨ha, hb, ?_, ?_⟩
  · intro exec input
    rw [ha2, hc2]
    simp [resultsFor]
  · intro exec hour day w locs
    rw [ha2, hc2]
    exact runLocations_isOk a c exec hour day w locs

/-- Witness for C10: from the empty cache with two successful loads,
`getSessions` succeeds and both returned handles are non-null, and the
results collection for any input has exactly two elements. -/
theorem sessions_ok_results_complete_w :
    (Sessions.mk (some 1) (some 2) : Sessions Nat).stage1.isSome = true ∧
    (Sessions.mk (some 1) (some 2) : Sessions Nat).stage2.isSome = true ∧
    (resultsFor (Sessions.mk (some 1) (some 2) : Sessions Nat).stage1
      (Sessions.mk (some 1) (some 2) : Sessions Nat).stage2
      (fun _ _ => Except.error "x") []).length = 2 := by
  have h := sessions_ok_results_complete (S := Nat) ⟨none, none⟩ (Except.ok 1)
    (Except.ok 2) ⟨some 1, some 2⟩ ⟨some 1, some 2⟩ true rfl
  exact ⟨h.1, h.2.1, h.2.2.1 (fun _ _ => Except.error "x") []⟩
